import Mathlib

/-!
Verification of the turn-orchestration core of the agent-bedrock repository.

This file gives a shallow embedding, in Lean, of the parts of the source
that the frozen claims are about:

* the token estimator (src/utils/tokens.ts, class TokenEstimator);
* the memory manager (MemoryManager: addMessage, pruneMemory, loadSession,
  saveSession);
* the tool executor (src/tools/executor.ts: registerTool validation shape,
  validateToolInput, executeLocalTool, executeMcpTool, handleToolError,
  listAllTools) and the MCP client manager routing (listAllTools,
  findToolServer, executeTool);
* the MCP tool filter (src/mcp/filters.ts: filterTools) and
  McpServerConnection.applyToolFilters;
* the retry delay computation (src/utils/retry.ts: calculateDelay);
* the stream handler (src/stream/handler.ts: handleStream, processStream,
  processStreamEvent) over an explicit list of raw chunks;
* the two conversation-turn loops of the Agent class
  (processConversationTurn and processStreamingConversationTurn) driven by
  an explicit oracle of model responses, and the converse wrappers with
  their long-term-memory save behaviour.

JavaScript exceptions are modelled with Except: a function that can let an
exception escape returns Except; a catch block is a match on that Except.
JavaScript numbers are Nat where the source only ever holds nonnegative
integers, and Rat where fractions occur (the retry jitter). Tool inputs
and outputs are modelled by an explicit Json inductive; where the source
only ever uses the serialized length of a value (the token estimator), the
serialization is taken as the string itself.
-/

/-- JSON values, used for tool inputs and outputs. `null` is a value of its
own, as in JavaScript. An absent (undefined) value is `Option.none` at use
sites. -/
inductive Json where
  | null : Json
  | bool (b : Bool) : Json
  | num (n : Int) : Json
  | str (s : String) : Json
  | arr (xs : List Json) : Json
  | obj (fields : List (String × Json)) : Json

mutual

/-- Serialization of a Json value, modelling JSON.stringify for the shapes
the embedding produces. Only its output as a string matters to the claims
(tool results embed it; the token estimator measures its length). -/
def Json.stringify : Json → String
  | Json.null => "null"
  | Json.bool true => "true"
  | Json.bool false => "false"
  | Json.num n => toString n
  | Json.str s => "\"" ++ s ++ "\""
  | Json.arr xs => "[" ++ Json.stringifyArr xs ++ "]"
  | Json.obj fields => "\x7b" ++ Json.stringifyObj fields ++ "\x7d"

/-- Comma-joined serialization of array elements. -/
def Json.stringifyArr : List Json → String
  | [] => ""
  | [x] => Json.stringify x
  | x :: y :: rest => Json.stringify x ++ "," ++ Json.stringifyArr (y :: rest)

/-- Comma-joined serialization of object fields. -/
def Json.stringifyObj : List (String × Json) → String
  | [] => ""
  | [(k, v)] => "\"" ++ k ++ "\":" ++ Json.stringify v
  | (k, v) :: f :: rest =>
      "\"" ++ k ++ "\":" ++ Json.stringify v ++ "," ++ Json.stringifyObj (f :: rest)

end

/-- Content blocks of a message (src/config/message-types.ts). The tagged
variants mirror the key-presence dispatch of the source: text, image,
document, video, toolUse and toolResult. Image, document and video carry
no payload relevant to any claim (the token estimator charges them a fixed
constant). The toolUse input is carried in structured form together with
its serialized text, matching the source where the estimator serializes
the structured input with JSON.stringify. -/
inductive ContentBlock where
  | text (s : String) : ContentBlock
  | image : ContentBlock
  | document : ContentBlock
  | video : ContentBlock
  | toolUse (toolUseId name : String) (input : Json) : ContentBlock
  | toolResult (toolUseId : String) (content : List ContentBlock) (isError : Bool) : ContentBlock

/-- A conversation message: role plus ordered content blocks
(src/config/message-types.ts). -/
structure Message where
  role : String
  content : List ContentBlock

/-! ## Token estimator (src/utils/tokens.ts, TokenEstimator with the
default configuration: charsPerToken = 4, imageTokens = 1000,
documentTokens = 500, videoTokens = 2000, messageOverheadTokens = 4). -/

/-- TokenEstimator.estimateText: Math.ceil(text.length / 4). -/
def estimateText (text : String) : Nat :=
  (text.length + 3) / 4

mutual

/-- TokenEstimator.estimateContentBlock with default configuration. For a
toolUse block the source charges estimateText(name) plus
estimateText(JSON.stringify(input)); for a toolResult it recurses into the
nested content blocks (the foldl over nested blocks is written as the
structural sum, which computes the same Nat). -/
def estimateContentBlock : ContentBlock → Nat
  | ContentBlock.text s => estimateText s
  | ContentBlock.image => 1000
  | ContentBlock.document => 500
  | ContentBlock.video => 2000
  | ContentBlock.toolUse _ name input => estimateText name + estimateText (Json.stringify input)
  | ContentBlock.toolResult _ content _ => estimateBlocks content

/-- Sum of estimateContentBlock over a list of nested blocks. -/
def estimateBlocks : List ContentBlock → Nat
  | [] => 0
  | c :: rest => estimateContentBlock c + estimateBlocks rest

end

/-- TokenEstimator.estimateMessage: the per-message overhead of 4 tokens
plus the sum over content blocks (the foldl of the source computes this
same Nat). -/
def estimateMessage (m : Message) : Nat :=
  4 + estimateBlocks m.content

/-- TokenEstimator.estimateMessages: sum over messages, written
structurally (the foldl of the source computes this same Nat). -/
def estimateMessages : List Message → Nat
  | [] => 0
  | m :: rest => estimateMessage m + estimateMessages rest

/-! ## Memory manager (MemoryManager in the memory module; the claims cite
it through src/types/index.ts). The short-term buffer is a list of
messages, oldest first. -/

/-- The token-budget stage of MemoryManager.pruneMemory: while the
estimate of the remaining messages exceeds maxTokens and the buffer is
nonempty, shift off the oldest message and recompute. -/
def pruneByTokens (maxTokens : Nat) : List Message → List Message
  | [] => []
  | m :: rest =>
      if estimateMessages (m :: rest) > maxTokens then pruneByTokens maxTokens rest
      else m :: rest

/-- MemoryManager.pruneMemory: first drop the oldest excess messages in
one batch if the count exceeds maxMessages, then prune by token budget. -/
def pruneMemory (maxMessages maxTokens : Nat) (buf : List Message) : List Message :=
  let byCount :=
    if buf.length > maxMessages then buf.drop (buf.length - maxMessages) else buf
  pruneByTokens maxTokens byCount

/-- MemoryManager.addMessage: push the message, then prune. -/
def addMessage (maxMessages maxTokens : Nat) (buf : List Message) (m : Message) :
    List Message :=
  pruneMemory maxMessages maxTokens (buf ++ [m])

/-- A memory error, as raised by MemoryManager when long-term hooks are
missing. Only the shape matters to the claims. -/
structure MemError where
  message : String
deriving Repr, DecidableEq

/-- MemoryManager.loadSession. The externally supplied fetch callback is
modelled by its outcome: Except.error when it throws, Except.ok with the
fetched messages when it succeeds. When long-term memory is not configured
the method throws a MemoryError before touching the buffer. A fetch
failure is caught, logged and swallowed, leaving the buffer exactly as it
was; on success the buffer is replaced by the fetched messages and then
pruned. The returned value is the resulting short-term buffer. -/
def loadSession (configured : Bool) (maxMessages maxTokens : Nat)
    (fetchResult : Except String (List Message)) (buf : List Message) :
    Except MemError (List Message) :=
  if ¬ configured then
    Except.error { message := "Long-term memory not configured" }
  else
    match fetchResult with
    | Except.error _ => Except.ok buf
    | Except.ok msgs => Except.ok (pruneMemory maxMessages maxTokens msgs)

/-- MemoryManager.saveSession. The save callback outcome is modelled by an
Except; a save failure is caught, logged and swallowed, so the method
completes normally whenever long-term memory is configured. -/
def saveSession (configured : Bool) (saveResult : Except String Unit) :
    Except MemError Unit :=
  if ¬ configured then
    Except.error { message := "Long-term memory not configured" }
  else
    match saveResult with
    | Except.error _ => Except.ok ()
    | Except.ok _ => Except.ok ()

/-! ## Lemmas about pruning, supporting claim C2. -/

/-- After the token-budget stage, either the estimate fits the budget or
the buffer is empty. -/
theorem pruneByTokens_fits_or_nil (maxTokens : Nat) (l : List Message) :
    estimateMessages (pruneByTokens maxTokens l) ≤ maxTokens ∨
    pruneByTokens maxTokens l = [] := by
  induction l with
  | nil => exact Or.inl (Nat.le_of_eq rfl |>.trans (Nat.zero_le _))
  | cons m rest ih =>
    by_cases h : estimateMessages (m :: rest) > maxTokens
    · simpa [pruneByTokens, h] using ih
    · simp only [pruneByTokens, h, if_false]
      exact Or.inl (Nat.le_of_not_lt h)

/-- The token-budget stage never lengthens the buffer. -/
theorem pruneByTokens_length_le (maxTokens : Nat) (l : List Message) :
    (pruneByTokens maxTokens l).length ≤ l.length := by
  induction l with
  | nil => simp [pruneByTokens]
  | cons m rest ih =>
    by_cases h : estimateMessages (m :: rest) > maxTokens
    · simp only [pruneByTokens, h, if_true]
      exact ih.trans (Nat.le_succ _)
    · simp [pruneByTokens, h]

/-- After pruning, the count never exceeds maxMessages. -/
theorem pruneMemory_length_le (maxMessages maxTokens : Nat) (buf : List Message) :
    (pruneMemory maxMessages maxTokens buf).length ≤ maxMessages := by
  unfold pruneMemory
  by_cases h : buf.length > maxMessages
  · simp only [h, if_true]
    refine (pruneByTokens_length_le _ _).trans ?_
    rw [List.length_drop]
    omega
  · simp only [h, if_false]
    exact (pruneByTokens_length_le _ _).trans (Nat.le_of_not_lt h)

/-- C2. For every MemoryManager configuration, buffer state and message,
after addMessage either the buffer holds at most maxMessages messages and
its token estimate is at most maxTokens, or the buffer is empty. Since
the buffer before any call of a sequence is itself some list of messages,
this settles the invariant after each call of every addMessage sequence. -/
theorem C2_addMessage_invariant (maxMessages maxTokens : Nat)
    (buf : List Message) (m : Message) :
    ((addMessage maxMessages maxTokens buf m).length ≤ maxMessages ∧
      estimateMessages (addMessage maxMessages maxTokens buf m) ≤ maxTokens) ∨
    addMessage maxMessages maxTokens buf m = [] := by
  rcases pruneByTokens_fits_or_nil maxTokens
      (if (buf ++ [m]).length > maxMessages
        then (buf ++ [m]).drop ((buf ++ [m]).length - maxMessages)
        else buf ++ [m]) with h | h
  · exact Or.inl ⟨pruneMemory_length_le _ _ _, h⟩
  · exact Or.inr h

/-- C10. If the externally supplied long-term fetch callback throws during
loadSession, the short-term buffer is returned exactly as it was (the
error is logged and swallowed, with no piecemeal replacement or clearing);
when the fetch succeeds, the buffer is replaced by the fetched messages
and then pruned. -/
theorem C10_loadSession_failure_preserves_buffer (maxMessages maxTokens : Nat)
    (buf : List Message) (e : String) (msgs : List Message) :
    loadSession true maxMessages maxTokens (Except.error e) buf = Except.ok buf ∧
    loadSession true maxMessages maxTokens (Except.ok msgs) buf =
      Except.ok (pruneMemory maxMessages maxTokens msgs) :=
  ⟨rfl, rfl⟩

/-! ## MCP tool filtering (src/mcp/filters.ts and
McpServerConnection.applyToolFilters in src/mcp/connection.ts). -/

/-- A tool exposed by a remote MCP server (src/mcp/types.ts, McpTool). -/
structure McpTool where
  name : String
  description : String
  inputSchema : Json
  serverName : String

/-- Per-server tool filter configuration (src/mcp/types.ts,
McpToolFilter). -/
structure McpToolFilter where
  allowedTools : Option (List String)
  deniedTools : Option (List String)

/-- Result of filterTools (src/mcp/filters.ts, FilterResult). -/
structure FilterResult where
  tools : List McpTool
  originalCount : Nat
  filteredCount : Nat
  remainingCount : Nat

/-- filterTools (src/mcp/filters.ts): copy the list; when allowedTools is
present and nonempty keep only listed names; then, when deniedTools is
present and nonempty, remove listed names. -/
def filterTools (tools : List McpTool) (filterCfg : McpToolFilter) : FilterResult :=
  let afterAllow :=
    match filterCfg.allowedTools with
    | some allowed =>
        if allowed.length ≠ 0 then tools.filter (fun t => allowed.contains t.name) else tools
    | none => tools
  let afterDeny :=
    match filterCfg.deniedTools with
    | some denied =>
        if denied.length ≠ 0 then afterAllow.filter (fun t => ¬ denied.contains t.name)
        else afterAllow
    | none => afterAllow
  { tools := afterDeny
    originalCount := tools.length
    filteredCount := tools.length - afterDeny.length
    remainingCount := afterDeny.length }

/-- McpServerConnection.applyToolFilters (src/mcp/connection.ts): a server
with no configured filter keeps its tool cache; otherwise the cache is
rebuilt from the filterTools result. -/
def applyToolFilters (toolFilter : Option McpToolFilter) (tools : List McpTool) :
    List McpTool :=
  match toolFilter with
  | none => tools
  | some f => (filterTools tools f).tools

/-- C8. filterTools applies the allow-list first (when present and
nonempty only listed names survive) and the deny-list second (any listed
name is removed even if previously allowed): a tool survives exactly when
it passes both stages, so for allowedTools = ["a"] and
deniedTools = ["a"] every surviving tool has a name other than "a" —
deny wins on overlap. -/
theorem C8_filterTools_deny_wins (tools : List McpTool) (a d : List String) (t : McpTool) :
    (t ∈ (filterTools tools { allowedTools := some a, deniedTools := some d }).tools ↔
      t ∈ tools ∧ (a = [] ∨ t.name ∈ a) ∧ (d = [] ∨ t.name ∉ d)) ∧
    (∀ u : McpTool,
      u ∈ (filterTools tools { allowedTools := some ["a"], deniedTools := some ["a"] }).tools →
        u.name ≠ "a") := by
  constructor
  · unfold filterTools
    rcases a with _ | ⟨x, a0⟩ <;> rcases d with _ | ⟨y, d0⟩ <;>
      simp [List.mem_filter] <;> tauto
  · intro u hu hname
    unfold filterTools at hu
    simp [List.mem_filter, hname] at hu

/-- Witness for C8 at a concrete catalog: a tool named "a" does not
survive the allowed = ["a"], denied = ["a"] filter. -/
theorem C8_filterTools_deny_wins_witness :
    ¬ ({ name := "a", description := "d", inputSchema := Json.null, serverName := "s" } : McpTool)
      ∈ (filterTools
          [{ name := "a", description := "d", inputSchema := Json.null, serverName := "s" }]
          { allowedTools := some ["a"], deniedTools := some ["a"] }).tools := by
  intro h
  exact (C8_filterTools_deny_wins
      [{ name := "a", description := "d", inputSchema := Json.null, serverName := "s" }]
      ["a"] ["a"]
      { name := "a", description := "d", inputSchema := Json.null, serverName := "s" }).2 _ h rfl

/-! ## Retry delay (src/utils/retry.ts, RetryHandler.calculateDelay). -/

/-- RetryHandler.calculateDelay. The Math.random() draw is the parameter
r, in [0, 1); the source computes jitter = 0.5 + r * 0.5 (so the jitter
factor u = 1/2 + r/2 ranges over [1/2, 1)), caps the exponential delay
baseDelay * 2 ^ (attempt - 1) at maxDelay, and floors the product. -/
def calculateDelay (baseDelay maxDelay : ℚ) (attempt : Nat) (r : ℚ) : ℤ :=
  let exponentialDelay := baseDelay * 2 ^ (attempt - 1)
  let cappedDelay := min exponentialDelay maxDelay
  let jitter := 1 / 2 + r * (1 / 2)
  ⌊cappedDelay * jitter⌋

/-- C9. For every attempt and every jitter draw, the computed delay is
the floor of the capped exponential delay times the jitter factor
u = 1/2 + r/2 ∈ [1/2, 1); in particular at attempt 3 with baseDelay 100
and maxDelay 5000 the pre-jitter value is 400 and the delay lies in
[200, 400]. -/
theorem C9_retry_delay_bounds (attempt : Nat) (base maxD r : ℚ)
    (h0 : 0 ≤ r) (h1 : r < 1) :
    calculateDelay base maxD attempt r =
      ⌊min (base * 2 ^ (attempt - 1)) maxD * (1 / 2 + r * (1 / 2))⌋ ∧
    min ((100 : ℚ) * 2 ^ (3 - 1)) 5000 = 400 ∧
    (200 : ℤ) ≤ calculateDelay 100 5000 3 r ∧
    calculateDelay 100 5000 3 r ≤ 400 := by
  refine ⟨rfl, by norm_num, ?_, ?_⟩
  · rw [show calculateDelay 100 5000 3 r = ⌊(400 : ℚ) * (1 / 2 + r * (1 / 2))⌋ by
      unfold calculateDelay; norm_num]
    rw [Int.le_floor]
    push_cast
    nlinarith
  · rw [show calculateDelay 100 5000 3 r = ⌊(400 : ℚ) * (1 / 2 + r * (1 / 2))⌋ by
      unfold calculateDelay; norm_num]
    have hlt : ((400 : ℚ) * (1 / 2 + r * (1 / 2))) < 400 := by nlinarith
    exact (Int.floor_lt.mpr (by exact_mod_cast hlt)).le

/-- Witness for C9 at the midpoint draw r = 1/2: the delay at attempt 3
with baseDelay 100 and maxDelay 5000 lies in [200, 400]. -/
theorem C9_retry_delay_bounds_witness :
    (200 : ℤ) ≤ calculateDelay 100 5000 3 (1 / 2) ∧
    calculateDelay 100 5000 3 (1 / 2) ≤ 400 :=
  ⟨(C9_retry_delay_bounds 3 100 5000 (1 / 2) (by norm_num) (by norm_num)).2.2.1,
   (C9_retry_delay_bounds 3 100 5000 (1 / 2) (by norm_num) (by norm_num)).2.2.2⟩

/-! ## Tool executor (src/tools/executor.ts) and MCP routing
(src/mcp/client-manager.ts). JavaScript dynamic checks on the input value
are made explicit over the Json inductive. -/

/-- The JavaScript typeof operator restricted to present Json values:
null and arrays report "object". -/
def jsTypeof : Json → String
  | Json.null => "object"
  | Json.bool _ => "boolean"
  | Json.num _ => "number"
  | Json.str _ => "string"
  | Json.arr _ => "object"
  | Json.obj _ => "object"

/-- The JavaScript `in` operator: key membership on objects, index
membership on arrays, and a thrown TypeError on primitives (modelled as
an Except.error; the executor catch converts it like any other throw). -/
def jsIn (key : String) : Json → Except String Bool
  | Json.obj fields => Except.ok (fields.any (fun f => f.1 == key))
  | Json.arr xs => Except.ok ((key.toNat?).elim false (fun n => n < xs.length))
  | _ => Except.error "Cannot use the in operator on a primitive value"

/-- JavaScript property read input[propName] for objects and arrays; an
absent property is undefined, modelled as none. -/
def jsGet (v : Json) (key : String) : Option Json :=
  match v with
  | Json.obj fields => (fields.find? (fun f => f.1 == key)).map (fun f => f.2)
  | Json.arr xs => (key.toNat?).bind (fun n => xs.get? n)
  | _ => none

/-- Errors that can be thrown around tool execution, mirroring the error
classes of src/errors/index.ts that executor code can see:
ToolExecutionError, McpToolExecutionError, and any other thrown Error
(carrying only its message). -/
inductive ToolErr where
  | toolExecution (toolName message : String) : ToolErr
  | mcpToolExecution (serverName toolName message : String) : ToolErr
  | other (message : String) : ToolErr

/-- The .message property of a thrown error, as built by the constructors
in src/errors/index.ts. -/
def ToolErr.jsMessage : ToolErr → String
  | ToolErr.toolExecution toolName m => "Tool execution failed: " ++ toolName ++ " - " ++ m
  | ToolErr.mcpToolExecution server toolName m =>
      "MCP tool execution error [" ++ server ++ "/" ++ toolName ++ "]: " ++ m
  | ToolErr.other m => m

/-- A JSON-schema property entry: the declared type may be absent
(src/tools/types.ts, JSONSchemaProperty; the executor reads only .type). -/
structure JSONSchemaProp where
  type : Option String

/-- A tool input schema (src/tools/types.ts, JSONSchema); the executor
reads .type, .properties and .required. A required value that is absent or
not an array is none. -/
structure JSONSchema where
  type : String
  properties : Option (List (String × JSONSchemaProp))
  required : Option (List String)

/-- A locally registered tool (src/tools/types.ts, ToolDefinition). The
async handler is modelled by its outcome on a given input: Except.error
when it throws. -/
structure ToolDefinition where
  name : String
  description : String
  inputSchema : JSONSchema
  handler : Json → Except ToolErr Json

/-- A tool-use request from the model (src/tools/types.ts, ToolUse); the
input may be absent (undefined). -/
structure ToolUse where
  toolUseId : String
  name : String
  input : Option Json

/-- Tool execution status. -/
inductive ToolStatus where
  | success : ToolStatus
  | error : ToolStatus
deriving Repr, DecidableEq

/-- A tool result (src/tools/types.ts, ToolResult): each content entry is
the text of one text block. -/
structure ToolResult where
  toolUseId : String
  content : List String
  status : ToolStatus

/-- ToolExecutor.validateType: runtime type check of a value against a
declared JSON-schema type; unknown declared types are permitted. -/
def validateType (value : Json) (expectedType : String) : Bool :=
  if expectedType == "string" then (match value with | Json.str _ => true | _ => false)
  else if expectedType == "number" ∨ expectedType == "integer" then
    (match value with | Json.num _ => true | _ => false)
  else if expectedType == "boolean" then (match value with | Json.bool _ => true | _ => false)
  else if expectedType == "object" then (match value with | Json.obj _ => true | _ => false)
  else if expectedType == "array" then (match value with | Json.arr _ => true | _ => false)
  else if expectedType == "null" then (match value with | Json.null => true | _ => false)
  else true

/-- The required-fields loop of ToolExecutor.validateToolInput: throw at
the first name not present in the input (the `in` operator itself throws
on primitive inputs). -/
def checkRequired (toolName : String) (inputV : Json) : List String → Except ToolErr Unit
  | [] => Except.ok ()
  | f :: rest =>
      match jsIn f inputV with
      | Except.error m => Except.error (ToolErr.other m)
      | Except.ok present =>
          if ¬ present then
            Except.error (ToolErr.toolExecution toolName ("Missing required field: " ++ f))
          else checkRequired toolName inputV rest

/-- The declared-properties loop of ToolExecutor.validateToolInput: for
each declared property present in the input whose schema declares a type,
check the runtime type. -/
def checkProperties (toolName : String) (inputV : Json) :
    List (String × JSONSchemaProp) → Except ToolErr Unit
  | [] => Except.ok ()
  | (propName, propSchema) :: rest =>
      match jsIn propName inputV with
      | Except.error m => Except.error (ToolErr.other m)
      | Except.ok present =>
          if present then
            match propSchema.type with
            | none => checkProperties toolName inputV rest
            | some expectedType =>
                let value := (jsGet inputV propName).getD Json.null
                if ¬ validateType value expectedType then
                  Except.error (ToolErr.toolExecution toolName
                    ("Invalid type for field " ++ propName ++ ": expected " ++ expectedType ++
                      ", got " ++ jsTypeof value))
                else checkProperties toolName inputV rest
          else checkProperties toolName inputV rest

/-- ToolExecutor.validateToolInput: input must be present and non-null;
when the schema type is object the input must have typeof object; every
required name must be present; every declared property that is present
and has a declared type must match it. Throws (Except.error) on the first
violation. -/
def validateToolInput (toolName : String) (input : Option Json) (schema : JSONSchema) :
    Except ToolErr Unit :=
  match input with
  | none => Except.error (ToolErr.toolExecution toolName "Tool input is required")
  | some Json.null => Except.error (ToolErr.toolExecution toolName "Tool input is required")
  | some inputV =>
      if schema.type == "object" ∧ ¬ jsTypeof inputV == "object" then
        Except.error (ToolErr.toolExecution toolName
          ("Tool input must be an object, got " ++ jsTypeof inputV))
      else
        match (match schema.required with
               | some req => checkRequired toolName inputV req
               | none => Except.ok ()) with
        | Except.error e => Except.error e
        | Except.ok _ =>
            match schema.properties with
            | some props =>
                if jsTypeof inputV == "object" then checkProperties toolName inputV props
                else Except.ok ()
            | none => Except.ok ()

/-- Lookup in the local tool registry. The registry Map of the source is
modelled as a list with unique names (registerTool replaces same-named
entries); lookup takes the first match. -/
def findTool (tools : List ToolDefinition) (name : String) : Option ToolDefinition :=
  tools.find? (fun t => t.name == name)

/-- ToolExecutor.handleToolError: convert a caught error into an
error-status tool result whose single text block is a human-readable
message chosen by the instanceof checks of the source. -/
def handleToolError (toolUseId : String) (e : ToolErr) : ToolResult :=
  let errorMessage :=
    match e with
    | ToolErr.toolExecution _ _ => e.jsMessage
    | ToolErr.mcpToolExecution _ _ _ => "MCP tool execution failed: " ++ e.jsMessage
    | ToolErr.other m => "Tool execution failed: " ++ m
  { toolUseId := toolUseId, content := ["Error: " ++ errorMessage], status := ToolStatus.error }

/-- The try block of ToolExecutor.executeLocalTool: look the tool up
(throwing a not-found ToolExecutionError), validate the input, run the
handler, and build a success result whose content is the serialized
handler output. Any Except.error escaping here is what the catch of the
source receives. The handler is applied to the input value, which
validation has already proven present (the getD default is unreachable). -/
def executeLocalToolTry (tools : List ToolDefinition) (tu : ToolUse) :
    Except ToolErr ToolResult :=
  match findTool tools tu.name with
  | none =>
      Except.error (ToolErr.toolExecution tu.name ("Local tool not found: " ++ tu.name))
  | some tool =>
      match validateToolInput tu.name tu.input tool.inputSchema with
      | Except.error e => Except.error e
      | Except.ok _ =>
          match tool.handler (tu.input.getD Json.null) with
          | Except.error e => Except.error e
          | Except.ok result =>
              Except.ok { toolUseId := tu.toolUseId, content := [Json.stringify result],
                          status := ToolStatus.success }

/-- ToolExecutor.executeLocalTool: the try block with its catch, which
converts every thrown error into an error-status result. -/
def executeLocalTool (tools : List ToolDefinition) (tu : ToolUse) : ToolResult :=
  match executeLocalToolTry tools tu with
  | Except.ok r => r
  | Except.error e => handleToolError tu.toolUseId e

/-- A remote MCP server as seen through its connection
(src/mcp/connection.ts): name, connected flag, cached (already filtered)
tool catalog, and the outcome of callTool per tool name and input. -/
structure McpServer where
  name : String
  connected : Bool
  tools : List McpTool
  callTool : String → Json → Except ToolErr Json

/-- McpClientManager.listAllTools: concatenate the cached catalogs of the
connected servers in registration order (name conflicts across servers
are logged but every tool is kept). -/
def mcpListAllTools (servers : List McpServer) : List McpTool :=
  (servers.filter (fun s => s.connected)).flatMap (fun s => s.tools)

/-- McpClientManager.findToolServer: first connected server whose cached
catalog has the tool. -/
def findToolServer (servers : List McpServer) (toolName : String) : Option McpServer :=
  servers.find? (fun s => s.connected && s.tools.any (fun t => t.name == toolName))

/-- McpClientManager.executeTool: route to the first server exposing the
tool, or throw a typed not-found error; a callTool failure is rethrown. -/
def mcpManagerExecuteTool (servers : List McpServer) (toolName : String) (input : Json) :
    Except ToolErr Json :=
  match findToolServer servers toolName with
  | none =>
      Except.error (ToolErr.mcpToolExecution "unknown" toolName
        "Tool not found on any connected MCP server")
  | some conn => conn.callTool toolName input

/-- ToolExecutor.executeMcpTool: a missing manager or any error from the
MCP manager becomes an error-status result through handleToolError; a
success is serialized like a local result. -/
def executeMcpTool (mcpServers : Option (List McpServer)) (tu : ToolUse) : ToolResult :=
  match mcpServers with
  | none => handleToolError tu.toolUseId
      (ToolErr.toolExecution tu.name "MCP Client Manager not available")
  | some servers =>
      match mcpManagerExecuteTool servers tu.name (tu.input.getD Json.null) with
      | Except.ok result =>
          { toolUseId := tu.toolUseId, content := [Json.stringify result],
            status := ToolStatus.success }
      | Except.error e => handleToolError tu.toolUseId e

/-- The state of a ToolExecutor: the local registry and the optional MCP
client manager (its registered servers). -/
structure ToolExecutorState where
  tools : List ToolDefinition
  mcpServers : Option (List McpServer)

/-- ToolExecutor.isLocalTool: the local registry has the name. -/
def isLocalTool (tools : List ToolDefinition) (name : String) : Bool :=
  (findTool tools name).isSome

/-- ToolExecutor.executeTool: route to local execution when the name is
registered locally (local tools take precedence), else to MCP
execution. -/
def executeTool (st : ToolExecutorState) (tu : ToolUse) : ToolResult :=
  if isLocalTool st.tools tu.name then executeLocalTool st.tools tu
  else executeMcpTool st.mcpServers tu

/-- C5. ToolExecutor.executeTool never lets an exception escape: it is a
total function into ToolResult whose result always carries the request id;
every result is either a success or an error whose content is a single
human-readable "Error: ..." message; and whenever the try block of local
execution throws — a not-found lookup, an input-validation failure or a
handler exception, all of which surface as an Except.error of
executeLocalToolTry — the returned result is exactly the error result
built by handleToolError, and symmetrically for MCP execution. -/
theorem C5_executeTool_contains_failures (st : ToolExecutorState) (tu : ToolUse) :
    (executeTool st tu).toolUseId = tu.toolUseId ∧
    ((executeTool st tu).status = ToolStatus.success ∨
      ((executeTool st tu).status = ToolStatus.error ∧
        ∃ msg, (executeTool st tu).content = ["Error: " ++ msg])) ∧
    (∀ e, isLocalTool st.tools tu.name = true →
      executeLocalToolTry st.tools tu = Except.error e →
      executeTool st tu = handleToolError tu.toolUseId e) ∧
    (∀ servers e, isLocalTool st.tools tu.name = false →
      st.mcpServers = some servers →
      mcpManagerExecuteTool servers tu.name (tu.input.getD Json.null) = Except.error e →
      executeTool st tu = handleToolError tu.toolUseId e) := by
  refine ⟨?_, ?_, ?_, ?_⟩
  · unfold executeTool executeLocalTool executeMcpTool handleToolError
    split
    · split
      · rename_i r hr
        unfold executeLocalToolTry at hr
        split at hr
        · exact absurd hr (by simp)
        · split at hr
          · exact absurd hr (by simp)
          · split at hr
            · exact absurd hr (by simp)
            · simp at hr
              subst hr
              rfl
      · rfl
    · cases h : st.mcpServers with
      | none => simp [h]
      | some servers => simp [h]; split <;> simp
  · unfold executeTool executeLocalTool executeMcpTool
    split
    · split
      · rename_i r hr
        unfold executeLocalToolTry at hr
        split at hr
        · exact absurd hr (by simp)
        · split at hr
          · exact absurd hr (by simp)
          · split at hr
            · exact absurd hr (by simp)
            · simp at hr
              subst hr
              exact Or.inl rfl
      · exact Or.inr ⟨rfl, _, rfl⟩
    · cases h : st.mcpServers with
      | none => simp [h, handleToolError]
      | some servers =>
          simp only [h]
          split
          · exact Or.inl rfl
          · exact Or.inr ⟨rfl, _, rfl⟩
  · intro e hloc herr
    unfold executeTool executeLocalTool
    rw [if_pos hloc, herr]
  · intro servers e hloc hsrv herr
    unfold executeTool executeMcpTool
    simp only [hloc, Bool.false_eq_true, if_false, hsrv, herr]

/-- A demonstration tool whose schema requires the field x, used by the
C5 witness. -/
def requireXTool : ToolDefinition :=
  { name := "f"
    description := "demo"
    inputSchema := { type := "object", properties := none, required := some ["x"] }
    handler := fun _ => Except.ok Json.null }

/-- A tool-use request for requireXTool whose object input misses the
required field x. -/
def missingXUse : ToolUse :=
  { toolUseId := "id1", name := "f", input := some (Json.obj []) }

/-- Witness for C5: with the required field x missing, executeTool
returns the error-status result built by handleToolError rather than
throwing. -/
theorem C5_executeTool_contains_failures_witness :
    executeTool { tools := [requireXTool], mcpServers := none } missingXUse =
      handleToolError "id1" (ToolErr.toolExecution "f" "Missing required field: x") :=
  (C5_executeTool_contains_failures { tools := [requireXTool], mcpServers := none }
      missingXUse).2.2.1 _ rfl rfl

/-! ## Tool catalogs offered to the model: ToolExecutor.listAllTools
(src/tools/executor.ts) versus Agent.getAllToolSpecs (src/agent.ts). Only
the name and description of a specification matter to any claim; the
inputSchema payload is passed through verbatim by both functions. -/

/-- A tool specification, as placed into the toolConfig of a Bedrock
request (src/tools/types.ts, ToolSpec). -/
structure ToolSpec where
  name : String
  description : String

/-- ToolExecutor.listAllTools: local tools first, then the MCP catalog
with every tool whose name collides with a local tool skipped (local
takes precedence; the collision is logged, not an error). A missing MCP
manager yields the local catalog alone. -/
def executorListAllTools (st : ToolExecutorState) : List ToolSpec :=
  let localSpecs := st.tools.map (fun t => ToolSpec.mk t.name t.description)
  match st.mcpServers with
  | none => localSpecs
  | some servers =>
      localSpecs ++
        ((mcpListAllTools servers).filter
            (fun mt => ¬ st.tools.any (fun t => t.name == mt.name))).map
          (fun mt => ToolSpec.mk mt.name mt.description)

/-- Agent.getAllToolSpecs: local tools first (via getToolNames and
getTool), then every MCP tool from McpClientManager.listAllTools —
without any collision skip. This is the catalog placed into the model
request by buildConverseRequest and buildConverseStreamRequest. -/
def agentGetAllToolSpecs (tools : List ToolDefinition) (servers : List McpServer) :
    List ToolSpec :=
  tools.map (fun t => ToolSpec.mk t.name t.description) ++
    (mcpListAllTools servers).map (fun mt => ToolSpec.mk mt.name mt.description)

/-- Number of catalog entries carrying a given name. -/
def countName (specs : List ToolSpec) (n : String) : Nat :=
  (specs.filter (fun s => s.name == n)).length

/-- A local tool named search whose handler returns the given value. -/
def searchLocalDef (lv : Json) : ToolDefinition :=
  { name := "search"
    description := "local search"
    inputSchema := { type := "object", properties := none, required := none }
    handler := fun _ => Except.ok lv }

/-- A remote MCP tool named search. -/
def searchMcpTool : McpTool :=
  { name := "search", description := "remote search", inputSchema := Json.null,
    serverName := "remote" }

/-- A connected remote server exposing the search tool, whose callTool
returns the given value. -/
def searchServer (rv : Json) : McpServer :=
  { name := "remote", connected := true, tools := [searchMcpTool],
    callTool := fun _ _ => Except.ok rv }

/-- An executor with the local search tool registered and the remote
server connected. -/
def searchExecutor (lv rv : Json) : ToolExecutorState :=
  { tools := [searchLocalDef lv], mcpServers := some [searchServer rv] }

/-- A model request to call the tool named search. -/
def searchUse : ToolUse :=
  { toolUseId := "tu1", name := "search", input := some (Json.obj []) }

/-- C3, counterexample. With a local tool named search registered and a
connected remote server also exposing search, the merged catalog that
Agent.getAllToolSpecs supplies to the model contains two entries named
search, not exactly one: the agent builds the request catalog without the
collision skip of ToolExecutor.listAllTools. -/
theorem C3_model_catalog_contains_duplicate :
    countName
        (agentGetAllToolSpecs [searchLocalDef (Json.str "L")] [searchServer (Json.str "R")])
        "search" = 2 ∧ (2 : Nat) ≠ 1 :=
  ⟨rfl, by decide⟩

/-- C3, amended. With a local search tool and a connected remote server
also exposing search: the catalog returned by ToolExecutor.listAllTools
contains exactly one entry named search (the remote duplicate is
skipped), and executing a tool call named search runs the local handler
(the result serializes the local handler value, whatever the remote
callTool would return); however the catalog supplied to the model by
Agent.getAllToolSpecs contains both entries. -/
theorem C3_local_precedence_and_agent_duplicate (lv rv : Json) :
    countName (executorListAllTools (searchExecutor lv rv)) "search" = 1 ∧
    executeTool (searchExecutor lv rv) searchUse =
      { toolUseId := "tu1", content := [Json.stringify lv], status := ToolStatus.success } ∧
    countName (agentGetAllToolSpecs [searchLocalDef lv] [searchServer rv]) "search" = 2 :=
  ⟨rfl, rfl, rfl⟩

/-! ## Stream handler (src/stream/handler.ts). One model call produces an
optional event stream (none when the Bedrock send returns no stream) whose
chunks are processed in order. Logging, tracing and timing metrics have no
effect on the data flow and are omitted. -/

/-- A raw delta inside a contentBlockDelta chunk: a text fragment or a
tool-use input fragment (whose input string may be absent). -/
inductive RawDelta where
  | text (s : String) : RawDelta
  | toolUse (input : Option String) : RawDelta

/-- A raw chunk of the Bedrock ConverseStream output. Optional fields
mirror the optionality of the SDK types; the exception variants carry
their message. The unknown variant stands for any event kind the handler
does not recognise (logged and skipped). -/
inductive RawChunk where
  | messageStart (role : String) : RawChunk
  | contentBlockStart (contentBlockIndex : Option Nat)
      (startToolUse : Option (Option String × Option String)) : RawChunk
  | contentBlockDelta (contentBlockIndex : Option Nat) (delta : Option RawDelta) : RawChunk
  | contentBlockStop (contentBlockIndex : Option Nat) : RawChunk
  | messageStop (stopReason : Option String) : RawChunk
  | metadata (usage : Option (Nat × Nat × Nat)) : RawChunk
  | internalServerException (message : String) : RawChunk
  | modelStreamErrorException (message : String) : RawChunk
  | throttlingException (message : String) : RawChunk
  | validationException (message : String) : RawChunk
  | unknown : RawChunk

/-- A delta of a framework stream event (src/stream/types.ts). -/
inductive StreamDelta where
  | text (s : String) : StreamDelta
  | toolUseInput (s : String) : StreamDelta

/-- A framework stream event (src/stream/types.ts, StreamEvent). The
contentBlockStart payload is the transformed in-progress block: none for a
text block (the source emits an empty object), or the tool-use id and
name. -/
inductive StreamEvent where
  | messageStart (role : String) : StreamEvent
  | contentBlockStart (contentBlockIndex : Nat)
      (startBlock : Option (String × String)) : StreamEvent
  | contentBlockDelta (contentBlockIndex : Nat) (delta : StreamDelta) : StreamEvent
  | contentBlockStop (contentBlockIndex : Nat) : StreamEvent
  | messageStop (stopReason : String) : StreamEvent
  | metadata (inputTokens outputTokens totalTokens : Nat) : StreamEvent
  | error (message code : String) : StreamEvent

/-- A StreamError (src/errors/index.ts): message plus machine-readable
code. -/
structure StreamErr where
  message : String
  code : String
deriving Repr, DecidableEq

/-- StreamHandler configuration (src/stream/types.ts,
StreamHandlerConfig, with the defaults applied by the constructor:
enableDebugLogging false, streamTimeout 300000 ms). -/
structure StreamHandlerConfig where
  enableDebugLogging : Bool
  streamTimeout : Nat

/-- The defaults applied by the StreamHandler constructor. -/
def defaultStreamHandlerConfig : StreamHandlerConfig :=
  { enableDebugLogging := false, streamTimeout := 300000 }

/-- StreamHandler.transformDelta: an absent delta becomes empty text; a
text delta passes through; a tool-use delta keeps its input fragment,
defaulting to the empty string. -/
def transformDelta : Option RawDelta → StreamDelta
  | none => StreamDelta.text ""
  | some (RawDelta.text s) => StreamDelta.text s
  | some (RawDelta.toolUse input) => StreamDelta.toolUseInput (input.getD "")

/-- StreamHandler.transformContentBlockStart: a tool-use start keeps id
and name (defaulting to empty strings); anything else becomes the empty
in-progress block. -/
def transformContentBlockStart :
    Option (Option String × Option String) → Option (String × String)
  | none => none
  | some (id, name) => some (id.getD "", name.getD "")

/-- The try block of StreamHandler.processStreamEvent: transform one raw
chunk into at most one framework event, throwing a StreamError for the
exception chunk kinds (internal server, model stream, throttling,
validation). -/
def processStreamEventTry : RawChunk → Except StreamErr (Option StreamEvent)
  | RawChunk.messageStart _ => Except.ok (some (StreamEvent.messageStart "assistant"))
  | RawChunk.contentBlockStart idx st =>
      Except.ok (some (StreamEvent.contentBlockStart (idx.getD 0) (transformContentBlockStart st)))
  | RawChunk.contentBlockDelta idx delta =>
      Except.ok (some (StreamEvent.contentBlockDelta (idx.getD 0) (transformDelta delta)))
  | RawChunk.contentBlockStop idx =>
      Except.ok (some (StreamEvent.contentBlockStop (idx.getD 0)))
  | RawChunk.messageStop sr =>
      Except.ok (some (StreamEvent.messageStop (sr.getD "end_turn")))
  | RawChunk.metadata none => Except.ok none
  | RawChunk.metadata (some (i, o, t)) => Except.ok (some (StreamEvent.metadata i o t))
  | RawChunk.internalServerException m =>
      Except.error { message := m, code := "API_INTERNAL_ERROR" }
  | RawChunk.modelStreamErrorException m =>
      Except.error { message := m, code := "STREAM_ERROR" }
  | RawChunk.throttlingException m =>
      Except.error { message := m, code := "API_THROTTLED" }
  | RawChunk.validationException m =>
      Except.error { message := m, code := "VALIDATION_ERROR" }
  | RawChunk.unknown => Except.ok none

/-- StreamHandler.processStreamEvent: its own catch wraps every error
thrown inside the try block into the parse-failure StreamError. -/
def processStreamEvent (chunk : RawChunk) : Except StreamErr (Option StreamEvent) :=
  match processStreamEventTry chunk with
  | Except.ok v => Except.ok v
  | Except.error _ =>
      Except.error { message := "Failed to process stream event", code := "STREAM_PARSE_ERROR" }

/-- StreamHandler.processStream over the chunk list: events are yielded
in order (null transforms skipped); the first processing error yields a
terminal error event and is then rethrown. A stream that simply ends —
with or without a messageStop chunk — completes without error. The
result is the yielded event list together with the rethrown error, if
any. -/
def processStream : List RawChunk → List StreamEvent × Option StreamErr
  | [] => ([], none)
  | c :: rest =>
      match processStreamEvent c with
      | Except.ok none => processStream rest
      | Except.ok (some e) =>
          let r := processStream rest
          (e :: r.1, r.2)
      | Except.error err => ([StreamEvent.error err.message err.code], some err)

/-- StreamHandler.handleStream: when the Bedrock send returns no stream a
StreamError is thrown (and rethrown unchanged by handleStreamError);
otherwise the chunks are processed. The config is carried exactly as the
source carries it: its streamTimeout is stored by the constructor and
never read by the processing path. -/
def handleStream (cfg : StreamHandlerConfig) (streamOpt : Option (List RawChunk)) :
    List StreamEvent × Option StreamErr :=
  match cfg, streamOpt with
  | _, none =>
      ([], some { message := "No stream returned from Bedrock API", code := "STREAM_ERROR" })
  | _, some chunks => processStream chunks

/-- The stop-reason accumulation of the agent streaming loop
(src/agent.ts, processStreamingConversationTurn): initialised to
end_turn and overwritten by each messageStop event. -/
def finalStopReason (events : List StreamEvent) : String :=
  events.foldl
    (fun acc e => match e with | StreamEvent.messageStop sr => sr | _ => acc) "end_turn"

/-- A well-formed chunk sequence that ends without any messageStop. -/
def chunksWithoutMessageStop : List RawChunk :=
  [RawChunk.messageStart "assistant",
   RawChunk.contentBlockStart (some 0) none,
   RawChunk.contentBlockDelta (some 0) (some (RawDelta.text "Hello")),
   RawChunk.contentBlockStop (some 0)]

/-- C6, counterexample. A stream that ends without a messageStop event
does not terminate with a stream error: handleStream forwards the four
events and completes with no error, refuting the claimed fatal-error
case. -/
theorem C6_no_messageStop_is_not_an_error :
    handleStream defaultStreamHandlerConfig (some chunksWithoutMessageStop) =
      ([StreamEvent.messageStart "assistant",
        StreamEvent.contentBlockStart 0 none,
        StreamEvent.contentBlockDelta 0 (StreamDelta.text "Hello"),
        StreamEvent.contentBlockStop 0], none) :=
  rfl

/-- C6, amended. The streaming path throws a fatal stream error when the
Bedrock API returns no event stream at all; a stream that ends without a
messageStop event completes normally and the agent loop then defaults
the stop reason to end_turn; and the configured stream timeout (default
300000 ms) is stored but never read, so the outcome is independent of
its value. -/
theorem C6_stream_error_cases (cfg cfg2 : StreamHandlerConfig)
    (streamOpt : Option (List RawChunk)) (events : List StreamEvent) :
    handleStream cfg none =
      ([], some { message := "No stream returned from Bedrock API", code := "STREAM_ERROR" }) ∧
    defaultStreamHandlerConfig.streamTimeout = 300000 ∧
    handleStream cfg streamOpt = handleStream cfg2 streamOpt ∧
    ((∀ e ∈ events, ∀ sr, e ≠ StreamEvent.messageStop sr) →
      finalStopReason events = "end_turn") := by
  refine ⟨rfl, rfl, ?_, ?_⟩
  · cases streamOpt <;> rfl
  · intro h
    induction events with
    | nil => rfl
    | cons e rest ih =>
        have hrest := ih (fun x hx sr => h x (List.mem_cons_of_mem e hx) sr)
        cases e with
        | messageStop sr => exact absurd rfl (h _ (List.mem_cons_self _ _) sr)
        | messageStart r =>
            simpa [finalStopReason] using
              (by simpa [finalStopReason] using hrest :
                List.foldl _ "end_turn" rest = "end_turn")
        | contentBlockStart i s =>
            simpa [finalStopReason] using
              (by simpa [finalStopReason] using hrest :
                List.foldl _ "end_turn" rest = "end_turn")
        | contentBlockDelta i d =>
            simpa [finalStopReason] using
              (by simpa [finalStopReason] using hrest :
                List.foldl _ "end_turn" rest = "end_turn")
        | contentBlockStop i =>
            simpa [finalStopReason] using
              (by simpa [finalStopReason] using hrest :
                List.foldl _ "end_turn" rest = "end_turn")
        | metadata a b c =>
            simpa [finalStopReason] using
              (by simpa [finalStopReason] using hrest :
                List.foldl _ "end_turn" rest = "end_turn")
        | error m c =>
            simpa [finalStopReason] using
              (by simpa [finalStopReason] using hrest :
                List.foldl _ "end_turn" rest = "end_turn")

/-- Witness for C6 at the concrete no-messageStop event list: the agent
loop keeps the default stop reason end_turn. -/
theorem C6_stream_error_cases_witness :
    finalStopReason
      [StreamEvent.messageStart "assistant",
       StreamEvent.contentBlockStart 0 none,
       StreamEvent.contentBlockDelta 0 (StreamDelta.text "Hello"),
       StreamEvent.contentBlockStop 0] = "end_turn" :=
  (C6_stream_error_cases defaultStreamHandlerConfig defaultStreamHandlerConfig none
      [StreamEvent.messageStart "assistant",
       StreamEvent.contentBlockStart 0 none,
       StreamEvent.contentBlockDelta 0 (StreamDelta.text "Hello"),
       StreamEvent.contentBlockStop 0]).2.2.2
    (by intro e he sr; fin_cases he <;> simp)

/-! ## Agent turn orchestration (src/agent.ts). One buffered model call is
abstracted by its observable outcome — stop reason, output content
blocks, guardrail trace and usage — and a whole turn by an oracle
assigning an outcome to each successive model call. Tool execution and
memory appends influence later outcomes only through the oracle; the
control flow of the loop depends solely on each outcome. -/

/-- The guardrail part of a Bedrock response trace; the action value may
be absent (the source defaults it to NONE). -/
structure GuardrailTrace where
  action : Option String

/-- The outcome of one buffered Bedrock Converse call: stop reason (none
models an absent or falsy value, defaulted to end_turn), the output
message content, the optional guardrail trace, and usage counters. -/
structure BedrockResponse where
  stopReason : Option String
  content : List ContentBlock
  trace : Option GuardrailTrace
  usage : Nat × Nat × Nat

/-- A tool call recorded during a turn (toolUseId, name, input). -/
structure ToolCall where
  toolUseId : String
  name : String
  input : Json

/-- Agent.extractToolUses: the tool-use blocks of the response content,
in order. -/
def extractToolUses (resp : BedrockResponse) : List ToolCall :=
  resp.content.filterMap
    (fun b => match b with
      | ContentBlock.toolUse id name input => some { toolUseId := id, name := name, input := input }
      | _ => none)

/-- The guardrail-action signal surfaced on a response
(src/config/message-types.ts, GuardrailAction; the trace payload itself
is carried by the source and omitted here). -/
structure GuardrailAction where
  action : String

/-- The response of a buffered turn (src/config/message-types.ts,
ConverseResponse). toolCalls is the possibly empty list (the source
attaches the field only when nonempty). -/
structure ConverseResponse where
  message : String
  stopReason : String
  usage : Nat × Nat × Nat
  toolCalls : List ToolCall
  guardrailAction : Option GuardrailAction

/-- The concatenated text of the text blocks of a response (empty text
blocks are skipped by the source, which leaves the concatenation
unchanged). -/
def textConcat (blocks : List ContentBlock) : String :=
  blocks.foldl
    (fun acc b => match b with | ContentBlock.text s => acc ++ s | _ => acc) ""

/-- JavaScript String.prototype.trim: strip leading and trailing
whitespace (the Unicode whitespace predicate stands in for the JS
whitespace set, which agrees on all characters the claims touch). -/
def jsTrim (s : String) : String :=
  String.mk (((s.data.dropWhile Char.isWhitespace).reverse.dropWhile Char.isWhitespace).reverse)

/-- Agent.getGuardrailFallbackMessage: the fixed apology string. -/
def guardrailFallbackMessage : String :=
  "I apologize, but I cannot provide a response to that request as it doesn\x27t align with my content guidelines. Please rephrase your question or ask something else."

/-- Agent.buildConverseResponse: extract the message text; only when the
response carries a guardrail trace is a guardrail action recorded, and
only then — when additionally the action is INTERVENED or the stop
reason is guardrail_intervened, and the text is empty or whitespace — is
the fallback apology substituted. -/
def buildConverseResponse (resp : BedrockResponse) (usage : Nat × Nat × Nat)
    (toolCalls : List ToolCall) : ConverseResponse :=
  let stopReason := resp.stopReason.getD "end_turn"
  let messageText := textConcat resp.content
  match resp.trace with
  | none =>
      { message := messageText, stopReason := stopReason, usage := usage,
        toolCalls := toolCalls, guardrailAction := none }
  | some tr =>
      let action := tr.action.getD "NONE"
      let finalText :=
        if (action == "INTERVENED" || stopReason == "guardrail_intervened") &&
            jsTrim messageText == "" then
          guardrailFallbackMessage
        else messageText
      { message := finalText, stopReason := stopReason, usage := usage,
        toolCalls := toolCalls, guardrailAction := some { action := action } }

/-- Outcome of the buffered tool-use loop: a final response, or the
thrown fatal max-iterations APIError. -/
inductive TurnResult where
  | response (r : ConverseResponse) : TurnResult
  | maxIterationsError : TurnResult

/-- Componentwise accumulation of usage counters. -/
def addUsage (a b : Nat × Nat × Nat) : Nat × Nat × Nat :=
  (a.1 + b.1, a.2.1 + b.2.1, a.2.2 + b.2.2)

/-- The while loop of Agent.processConversationTurn, with the remaining
iteration budget as fuel (the source enters the body only while
iteration < 20, so the budget starts at 20): call the model, accumulate
usage, and on a tool_use stop reason with at least one tool-use block
record the calls, execute the tools and continue; on tool_use with no
blocks, or any other stop reason, finalize via buildConverseResponse. -/
def converseLoop (model : Nat → BedrockResponse) :
    Nat → Nat → Nat × Nat × Nat → List ToolCall → TurnResult
  | 0, _, _, _ => TurnResult.maxIterationsError
  | fuel + 1, i, usage, toolCalls =>
      let resp := model i
      let usage2 := addUsage usage resp.usage
      let stopReason := resp.stopReason.getD "end_turn"
      if stopReason == "tool_use" then
        let toolUses := extractToolUses resp
        if toolUses.isEmpty then
          TurnResult.response (buildConverseResponse resp usage2 toolCalls)
        else converseLoop model fuel (i + 1) usage2 (toolCalls ++ toolUses)
      else TurnResult.response (buildConverseResponse resp usage2 toolCalls)

/-- Agent.processConversationTurn: the loop with its bound of 20
iterations; an exhausted budget is the thrown fatal (non-retryable)
max-iterations APIError. -/
def processConversationTurn (model : Nat → BedrockResponse) : TurnResult :=
  converseLoop model 20 0 (0, 0, 0) []

/-- The while loop of Agent.processStreamingConversationTurn, modelled by
the value of the iteration counter when the loop exits. The body runs
while iteration < 10; it increments the counter, consumes one streamed
model call, and continues only on a tool_use stop reason with at least
one accumulated tool-use block — any other outcome breaks out of the
loop with the counter keeping its incremented value. The fuel equals the
bound, which the counter can never exceed. -/
def streamingLoopIter (model : Nat → BedrockResponse) : Nat → Nat → Nat
  | 0, iter => iter
  | fuel + 1, iter =>
      if iter < 10 then
        let iter2 := iter + 1
        let resp := model (iter2 - 1)
        let stopReason := resp.stopReason.getD "end_turn"
        if stopReason == "tool_use" && ¬ (extractToolUses resp).isEmpty then
          streamingLoopIter model fuel iter2
        else iter2
      else iter

/-- Agent.processStreamingConversationTurn, reduced to whether the turn
ends by throwing the fatal max-iterations APIError: after the loop exits
the source throws exactly when iteration >= 10 — including when the
loop exited through a break on its final permitted iteration. -/
def streamingThrowsMaxIterations (model : Nat → BedrockResponse) : Bool :=
  10 ≤ streamingLoopIter model 10 0

/-- A model outcome that requests one more tool call. -/
def toolUseResponse : BedrockResponse :=
  { stopReason := some "tool_use",
    content := [ContentBlock.toolUse "t1" "loop_tool" Json.null],
    trace := none, usage := (1, 1, 2) }

/-- A model outcome that ends the turn normally. -/
def endTurnResponse : BedrockResponse :=
  { stopReason := some "end_turn",
    content := [ContentBlock.text "done"],
    trace := none, usage := (1, 1, 2) }

/-- The failing streaming oracle: nine tool-use calls, then a normal
end_turn on the tenth (final permitted) iteration. -/
def nineToolThenEndModel : Nat → BedrockResponse :=
  fun i => if i < 9 then toolUseResponse else endTurnResponse

/-- C1. The buffered loop behaves as claimed at its bound: a model that
always requests tools fails with the max-iterations error, and an
end_turn on the 20th (final permitted) call returns normally. The
streaming loop errors on an always-tool-use model as claimed, but it
also throws the max-iterations error when the tenth call ends with
end_turn — the post-loop check fires on any break in the final
iteration, contradicting the claim for the streaming entry point (the
code bug this claim exposes). -/
theorem C1_max_iterations_boundary :
    processConversationTurn (fun _ => toolUseResponse) = TurnResult.maxIterationsError ∧
    (∃ r, processConversationTurn (fun i => if i < 19 then toolUseResponse else endTurnResponse) =
      TurnResult.response r ∧ r.stopReason = "end_turn") ∧
    streamingThrowsMaxIterations (fun _ => toolUseResponse) = true ∧
    streamingThrowsMaxIterations nineToolThenEndModel = true ∧
    (nineToolThenEndModel 9).stopReason = some "end_turn" :=
  ⟨rfl, ⟨_, rfl, rfl⟩, rfl, rfl, rfl⟩

/-- Outcome of Agent.converse including whether saveSession was invoked
for long-term persistence. -/
structure ConverseRunOutcome where
  result : TurnResult
  savedLongTerm : Bool

/-- Agent.converse, reduced to the turn outcome and the long-term save:
the saveSession call sits on the success path after
processConversationTurn, guarded by a session id and configured
long-term hooks; the catch block records metrics and rethrows without
saving. -/
def converseRun (hasSessionId configuredLongTerm : Bool)
    (model : Nat → BedrockResponse) : ConverseRunOutcome :=
  match processConversationTurn model with
  | TurnResult.maxIterationsError =>
      { result := TurnResult.maxIterationsError, savedLongTerm := false }
  | TurnResult.response r =>
      { result := TurnResult.response r,
        savedLongTerm := hasSessionId && configuredLongTerm }

/-- Outcome of Agent.converseStream, reduced to whether the fatal
max-iterations error was thrown and whether saveSession was invoked. -/
structure StreamRunOutcome where
  threwMaxIterations : Bool
  savedLongTerm : Bool

/-- Agent.converseStream, reduced like converseRun: the save follows the
streaming loop on the success path only; the catch yields a terminal
error event and rethrows without saving. -/
def converseStreamRun (hasSessionId configuredLongTerm : Bool)
    (model : Nat → BedrockResponse) : StreamRunOutcome :=
  let threw := streamingThrowsMaxIterations model
  { threwMaxIterations := threw,
    savedLongTerm := ¬ threw && (hasSessionId && configuredLongTerm) }

/-- C7, counterexample. With a session id and long-term hooks configured,
a buffered turn that ends in the max-iterations error does not persist
the history: the save sits on the success path and the catch rethrows
without saving, refuting persistence regardless of outcome. -/
theorem C7_error_turn_does_not_save :
    (converseRun true true (fun _ => toolUseResponse)).result =
      TurnResult.maxIterationsError ∧
    (converseRun true true (fun _ => toolUseResponse)).savedLongTerm = false :=
  ⟨rfl, rfl⟩

/-- C7, amended. For both entry points, the conversation history is
persisted exactly when a session id is provided, long-term hooks are
configured and the turn completes successfully; a turn that ends in an
error propagates the error without saving. The save itself is
best-effort: with hooks configured, saveSession completes normally even
when the save callback throws. -/
theorem C7_save_only_on_success (hasSessionId configuredLongTerm : Bool)
    (model : Nat → BedrockResponse) (saveCb : Except String Unit) :
    ((converseRun hasSessionId configuredLongTerm model).savedLongTerm = true ↔
      hasSessionId = true ∧ configuredLongTerm = true ∧
        ∃ r, (converseRun hasSessionId configuredLongTerm model).result =
          TurnResult.response r) ∧
    ((converseStreamRun hasSessionId configuredLongTerm model).savedLongTerm = true ↔
      hasSessionId = true ∧ configuredLongTerm = true ∧
        (converseStreamRun hasSessionId configuredLongTerm model).threwMaxIterations =
          false) ∧
    saveSession true saveCb = Except.ok () := by
  refine ⟨?_, ?_, ?_⟩
  · unfold converseRun
    cases h : processConversationTurn model with
    | maxIterationsError =>
        simp only [Bool.false_eq_true, false_iff]
        rintro ⟨-, -, r, hr⟩
        exact TurnResult.noConfusion hr
    | response r =>
        simp only [Bool.and_eq_true]
        constructor
        · rintro ⟨h1, h2⟩
          exact ⟨h1, h2, r, rfl⟩
        · rintro ⟨h1, h2, -⟩
          exact ⟨h1, h2⟩
  · unfold converseStreamRun
    cases h : streamingThrowsMaxIterations model <;> simp
  · unfold saveSession
    cases saveCb <;> rfl

/-- Witness for C7: with session and hooks configured and a model ending
normally at once, the history is saved. -/
theorem C7_save_only_on_success_witness :
    (converseRun true true (fun _ => endTurnResponse)).savedLongTerm = true :=
  (C7_save_only_on_success true true (fun _ => endTurnResponse)
      (Except.ok ())).1.mpr ⟨rfl, rfl, _, rfl⟩

/-- C4, counterexample. A buffered response whose stop reason is
guardrail_intervened but which carries no guardrail trace gets no
fallback substitution and no recorded signal: the returned message is
the empty accumulated text, not the apology string, because the entire
guardrail branch of buildConverseResponse is guarded by the presence of
response.trace.guardrail. -/
theorem C4_no_trace_no_fallback :
    (buildConverseResponse
        { stopReason := some "guardrail_intervened", content := [], trace := none,
          usage := (0, 0, 0) } (0, 0, 0) []).message = "" ∧
    (buildConverseResponse
        { stopReason := some "guardrail_intervened", content := [], trace := none,
          usage := (0, 0, 0) } (0, 0, 0) []).guardrailAction = none ∧
    ("" : String) ≠ guardrailFallbackMessage :=
  ⟨rfl, rfl, by decide⟩

/-- C4, amended. For every buffered response that carries a guardrail
trace, has stop reason guardrail_intervened and accumulated only empty
or whitespace text, the returned message is the fixed apology string and
a structured guardrail action is recorded; without a trace the message
stays empty and no signal is recorded (the counterexample). -/
theorem C4_guardrail_fallback_with_trace (resp : BedrockResponse)
    (usage : Nat × Nat × Nat) (toolCalls : List ToolCall) (tr : GuardrailTrace)
    (htr : resp.trace = some tr)
    (hsr : resp.stopReason = some "guardrail_intervened")
    (htxt : jsTrim (textConcat resp.content) = "") :
    (buildConverseResponse resp usage toolCalls).message = guardrailFallbackMessage ∧
    (buildConverseResponse resp usage toolCalls).guardrailAction =
      some { action := tr.action.getD "NONE" } := by
  unfold buildConverseResponse
  rw [htr, hsr]
  simp [htxt]

/-- Witness for C4: a concrete trace-carrying intervened response with
empty content yields the apology message and a recorded NONE action. -/
theorem C4_guardrail_fallback_with_trace_witness :
    (buildConverseResponse
        { stopReason := some "guardrail_intervened", content := [],
          trace := some { action := none }, usage := (0, 0, 0) }
        (0, 0, 0) []).message = guardrailFallbackMessage ∧
    (buildConverseResponse
        { stopReason := some "guardrail_intervened", content := [],
          trace := some { action := none }, usage := (0, 0, 0) }
        (0, 0, 0) []).guardrailAction = some { action := "NONE" } :=
  C4_guardrail_fallback_with_trace
    { stopReason := some "guardrail_intervened", content := [],
      trace := some { action := none }, usage := (0, 0, 0) }
    (0, 0, 0) [] { action := none } rfl rfl rfl
